import Mathlib

/-!
Verification of the 3DCNN potency-prediction pipeline (src/3DCNN.py).

The pipeline loads molecule records, derives three feature modalities
(voxel grids, RDKit descriptor vectors, character-encoded SMILES strings),
min-max normalizes two of them, trains a multi-branch regression network
under three validation-loss callbacks, and writes a submission file after
applying the inverse target transform to the raw test predictions.

This file shallowly embeds the data transformations and control logic of
that script and proves the specified properties about them.  Floats are
embedded as real numbers where the operations are transcendental
(log10, powers of 10) and as rationals where they are field arithmetic
(min-max scaling, loss comparisons).
-/

namespace ThreeDCNN

/-! ### Target transform (src/3DCNN.py lines 87 and 206)

Line 87:  train[pIC50] = -np.log10(train[IC50_nM]) + 9
Line 206: ic50_predictions = 10 ** (9 - test_preds) -/

/-- Forward target transform applied to training targets (line 87). -/
noncomputable def forward_transform (p : ℝ) : ℝ := -Real.logb 10 p + 9

/-- Inverse target transform applied to raw test predictions (line 206). -/
noncomputable def inverse_transform (q : ℝ) : ℝ := (10 : ℝ) ^ ((9 : ℝ) - q)

/-! ### SMILES character encoding (src/3DCNN.py lines 119-131) -/

/-- The hardcoded 36-entry character vocabulary (lines 120-122), in source
order; lookups fall back to 0 for unmapped characters. -/
def enc : List (Char × ℕ) :=
  [('l', 1), ('y', 2), ('@', 3), ('3', 4), ('H', 5), ('S', 6), ('F', 7),
   ('C', 8), ('r', 9), ('s', 10), ('/', 11), ('c', 12), ('o', 13),
   ('+', 14), ('I', 15), ('5', 16), ('(', 17), ('2', 18), (')', 19),
   ('9', 20), ('i', 21), ('#', 22), ('6', 23), ('8', 24), ('4', 25),
   ('=', 26), ('1', 27), ('O', 28), ('[', 29), ('D', 30), ('B', 31),
   (']', 32), ('N', 33), ('7', 34), ('n', 35), ('-', 36)]

/-- enc.get(char, 0) of the Python dict (line 125). -/
def encGet (e : List (Char × ℕ)) (c : Char) : ℕ := (e.lookup c).getD 0

/-- Lines 126-128: zero-right-pad when shorter than max_len, then
truncate with encoded[:max_len]. -/
def pad_truncate (encoded : List ℕ) (maxLen : ℕ) : List ℕ :=
  (if encoded.length < maxLen then
      encoded ++ List.replicate (maxLen - encoded.length) 0
    else encoded).take maxLen

/-- smiles_encoding (lines 124-128): map each character through the
vocabulary, then pad or truncate to max_len. -/
def smiles_encoding (smiles : List Char) (maxLen : ℕ) : List ℕ :=
  pad_truncate (smiles.map (fun c => encGet enc c)) maxLen

/-- train[Smiles].apply(len).max() over a record set (line 119); the
fold starts at 0 as the record sets of the script are nonempty. -/
def listMaxLen (l : List (List Char)) : ℕ :=
  l.foldl (fun a s => max a s.length) 0

/-- max_smiles_len (line 119): the larger of the train and test maxima,
computed once and shared by both encoding passes. -/
def max_smiles_len (train test : List (List Char)) : ℕ :=
  max (listMaxLen train) (listMaxLen test)

/-! ### MinMaxScaler (src/3DCNN.py lines 115-117 and 136-138)

sklearn MinMaxScaler with the default feature range (0, 1): fit records
the per-column data minimum and maximum of the fitted matrix; transform
maps x to (x - min) / (max - min), where a zero range is replaced by a
unit divisor (sklearn _handle_zeros_in_scale). -/

/-- sklearn _handle_zeros_in_scale: a zero range scales by 1. -/
def handle_zeros_in_scale (r : ℚ) : ℚ := if r = 0 then 1 else r

/-- The values of column j of the fitted matrix (rows are lists). -/
def colVals (X : List (List ℚ)) (j : ℕ) : List ℚ := X.map (fun row => row.getD j 0)

/-- Fit-time per-column data minimum. -/
def colMin (X : List (List ℚ)) (j : ℕ) : ℚ :=
  match colVals X j with
  | [] => 0
  | v :: vs => vs.foldl min v

/-- Fit-time per-column data maximum. -/
def colMax (X : List (List ℚ)) (j : ℕ) : ℚ :=
  match colVals X j with
  | [] => 0
  | v :: vs => vs.foldl max v

/-- MinMaxScaler.transform of a single entry x of column j, with the
scaler fitted on X. -/
def minmax_transform (X : List (List ℚ)) (j : ℕ) (x : ℚ) : ℚ :=
  (x - colMin X j) / handle_zeros_in_scale (colMax X j - colMin X j)

/-! ### Training callbacks (src/3DCNN.py lines 180-187) -/

/-- The three validation-loss callbacks of lines 180-183. -/
inductive TrainingCallback where
  | checkpoint
  | reduceLR
  | earlyStopping
deriving DecidableEq

/-- Line 187: callbacks = [checkpoint, reduce_lr, get_early_stopping_callback()].
Keras invokes the callbacks of this list in list order at each epoch end. -/
def callbacks : List TrainingCallback :=
  [TrainingCallback.checkpoint, TrainingCallback.reduceLR, TrainingCallback.earlyStopping]

/-- Early-stopping controller state: best validation loss seen, the epoch
it occurred at, the weights saved there, the count of consecutive
non-improving epochs, and the epoch at which training stopped (if any). -/
structure ESState (W : Type) where
  best : Option ℚ
  bestEpoch : ℕ
  bestWeights : Option W
  wait : ℕ
  stoppedEpoch : Option ℕ

/-- Initial early-stopping state: nothing observed yet. -/
def esInit (W : Type) : ESState W :=
  { best := none, bestEpoch := 0, bestWeights := none, wait := 0, stoppedEpoch := none }

/-- Modelled from the spec: the internals of Keras
EarlyStopping(monitor=val_loss, patience, restore_best_weights=True)
constructed at src/3DCNN.py line 183 are external to the repository; the
spec describes the policy as: monitor validation loss after each epoch;
a strict decrease is an improvement and records the epoch weights as
best; if no improvement occurs for patience consecutive epochs, terminate
training and restore the weights from the best epoch observed, not the
final epoch.  Epochs are numbered from 0. -/
def esStep {W : Type} (patience : ℕ) (s : ESState W) (epoch : ℕ) (loss : ℚ) (wts : W) :
    ESState W :=
  if s.stoppedEpoch.isSome then s
  else
    match s.best with
    | none =>
      { best := some loss, bestEpoch := epoch, bestWeights := some wts,
        wait := 0, stoppedEpoch := none }
    | some b =>
      if loss < b then
        { best := some loss, bestEpoch := epoch, bestWeights := some wts,
          wait := 0, stoppedEpoch := none }
      else
        if patience ≤ s.wait + 1 then
          { s with wait := s.wait + 1, stoppedEpoch := some epoch }
        else
          { s with wait := s.wait + 1 }

/-- Run the early-stopping controller over the first n epochs of a
training run with per-epoch validation losses and end-of-epoch weights. -/
def esRun {W : Type} (patience : ℕ) (loss : ℕ → ℚ) (wts : ℕ → W) : ℕ → ESState W
  | 0 => esInit W
  | n + 1 => esStep patience (esRun patience loss wts n) n (loss n) (wts n)

/-! ### Descriptor extraction (src/3DCNN.py lines 92-110) -/

/-- calculate_rdkit_features: Chem.MolFromSmiles and the 14 descriptor
functions are external library collaborators (spec contract: structure
string to 14 floats, or failure), so the parser and the descriptor
computation are parameters.  MolFromSmiles yields no molecule for an
unparseable string, and the script applies the descriptor functions to
that result unguarded, which raises; the raised exception is embedded as
Except.error carrying the offending string. -/
def calculate_rdkit_features {Mol : Type} (parse : String → Option Mol)
    (descriptors : Mol → List ℚ) (smiles : String) : Except String (List ℚ) :=
  match parse smiles with
  | none => Except.error smiles
  | some mol => Except.ok (descriptors mol)

/-! ### Compute-backend strategy selection (src/3DCNN.py lines 12-20) -/

/-- The exception type caught by the except clause at line 18. -/
structure ValueError where
  msg : String

/-- The execution strategy the pipeline continues with. -/
inductive Strategy where
  | tpu
  | default
deriving DecidableEq

/-- Lines 12-20: attempt TPU initialization (an external call that either
yields a TPU handle or raises ValueError); on success use the TPU
strategy, on ValueError fall back to tf.distribute.get_strategy(). -/
def select_strategy {T : Type} (tpuInit : Except ValueError T) : Strategy :=
  match tpuInit with
  | Except.ok _ => Strategy.tpu
  | Except.error _ => Strategy.default

/-! ### Submission assembly (src/3DCNN.py lines 205-208) -/

/-- Line 206: ic50_predictions = 10 ** (9 - test_preds), elementwise over
the flattened prediction vector. -/
noncomputable def ic50_predictions (preds : List ℝ) : List ℝ :=
  preds.map inverse_transform

/-- Line 207: submission = DataFrame with ID column test[ID] and IC50_nM
column ic50_predictions; the DataFrame constructor pairs the two columns
positionally. -/
noncomputable def submission (ids : List String) (preds : List ℝ) : List (String × ℝ) :=
  ids.zip (ic50_predictions preds)

/-! ### Training-row drop (src/3DCNN.py line 84) -/

/-- Line 84: train = pd.read_csv(...).drop(6341); a freshly read frame
carries the default range index, so dropping label 6341 removes exactly
the row at position 6341. -/
def train_after_drop {α : Type} (train0 : List α) : List α :=
  train0.eraseIdx 6341

/-! ## Helper lemmas -/

lemma lookup_range (l : List (Char × ℕ)) (hl : ∀ p ∈ l, 1 ≤ p.2 ∧ p.2 ≤ 36) (c : Char) :
    encGet l c = 0 ∨ (1 ≤ encGet l c ∧ encGet l c ≤ 36) := by
  induction l with
  | nil => left; rfl
  | cons p l ih =>
    rcases p with ⟨k, v⟩
    by_cases hc : c == k
    · right
      have : encGet ((k, v) :: l) c = v := by simp [encGet, List.lookup, hc]
      rw [this]
      exact hl (k, v) (by simp)
    · have : encGet ((k, v) :: l) c = encGet l c := by
        simp [encGet, List.lookup, Bool.eq_false_iff.mpr hc]
      rw [this]
      exact ih (fun q hq => hl q (List.mem_cons_of_mem _ hq))

lemma smiles_encoding_length (s : List Char) (m : ℕ) :
    (smiles_encoding s m).length = m := by
  unfold smiles_encoding pad_truncate
  split
  · rename_i h
    simp only [List.length_take, List.length_append, List.length_replicate,
      List.length_map] at *
    omega
  · rename_i h
    simp only [List.length_take, List.length_map] at *
    omega

lemma foldl_maxlen (l : List (List Char)) (a : ℕ) :
    l.foldl (fun a s => max a s.length) a = max a (listMaxLen l) := by
  induction l generalizing a with
  | nil => simp [listMaxLen]
  | cons s l ih =>
    show l.foldl _ (max a s.length) = _
    rw [ih (max a s.length)]
    have h2 : listMaxLen (s :: l) = max s.length (listMaxLen l) := by
      show l.foldl _ (max 0 s.length) = _
      rw [ih (max 0 s.length), Nat.zero_max]
    rw [h2, Nat.max_assoc]

lemma max_smiles_len_eq_union (train test : List (List Char)) :
    max_smiles_len train test = listMaxLen (train ++ test) := by
  unfold max_smiles_len
  show _ = (train ++ test).foldl (fun a s => max a s.length) 0
  rw [List.foldl_append, foldl_maxlen]
  rfl

lemma foldl_min_le_init (vs : List ℚ) (a : ℚ) : vs.foldl min a ≤ a := by
  induction vs generalizing a with
  | nil => simp
  | cons v vs ih =>
    exact le_trans (ih (min a v)) (min_le_left a v)

lemma foldl_min_le_mem (vs : List ℚ) (a x : ℚ) (hx : x ∈ vs) : vs.foldl min a ≤ x := by
  induction vs generalizing a with
  | nil => cases hx
  | cons v vs ih =>
    rcases List.mem_cons.mp hx with h | h
    · subst h
      exact le_trans (foldl_min_le_init vs (min a x)) (min_le_right a x)
    · exact ih (min a v) h

lemma foldl_min_mem (vs : List ℚ) (a : ℚ) : vs.foldl min a = a ∨ vs.foldl min a ∈ vs := by
  induction vs generalizing a with
  | nil => left; rfl
  | cons v vs ih =>
    rw [List.foldl_cons]
    rcases ih (min a v) with h | h
    · rcases min_choice a v with hc | hc
      · left; rw [h, hc]
      · right; rw [h, hc]; exact List.mem_cons_self v vs
    · right; exact List.mem_cons_of_mem v h

lemma foldl_max_ge_init (vs : List ℚ) (a : ℚ) : a ≤ vs.foldl max a := by
  induction vs generalizing a with
  | nil => simp
  | cons v vs ih =>
    exact le_trans (le_max_left a v) (ih (max a v))

lemma foldl_max_ge_mem (vs : List ℚ) (a x : ℚ) (hx : x ∈ vs) : x ≤ vs.foldl max a := by
  induction vs generalizing a with
  | nil => cases hx
  | cons v vs ih =>
    rcases List.mem_cons.mp hx with h | h
    · subst h
      exact le_trans (le_max_right a x) (foldl_max_ge_init vs (max a x))
    · exact ih (max a v) h

lemma foldl_max_mem (vs : List ℚ) (a : ℚ) : vs.foldl max a = a ∨ vs.foldl max a ∈ vs := by
  induction vs generalizing a with
  | nil => left; rfl
  | cons v vs ih =>
    rw [List.foldl_cons]
    rcases ih (max a v) with h | h
    · rcases max_choice a v with hc | hc
      · left; rw [h, hc]
      · right; rw [h, hc]; exact List.mem_cons_self v vs
    · right; exact List.mem_cons_of_mem v h

lemma colMin_mem (X : List (List ℚ)) (j : ℕ) (hX : colVals X j ≠ []) :
    colMin X j ∈ colVals X j := by
  unfold colMin
  rcases hL : colVals X j with _ | ⟨v, vs⟩
  · exact absurd hL hX
  · show List.foldl min v vs ∈ v :: vs
    rcases foldl_min_mem vs v with h | h
    · rw [h]; exact List.mem_cons_self v vs
    · exact List.mem_cons_of_mem v h

lemma colMax_mem (X : List (List ℚ)) (j : ℕ) (hX : colVals X j ≠ []) :
    colMax X j ∈ colVals X j := by
  unfold colMax
  rcases hL : colVals X j with _ | ⟨v, vs⟩
  · exact absurd hL hX
  · show List.foldl max v vs ∈ v :: vs
    rcases foldl_max_mem vs v with h | h
    · rw [h]; exact List.mem_cons_self v vs
    · exact List.mem_cons_of_mem v h

lemma colMin_le (X : List (List ℚ)) (j : ℕ) (x : ℚ) (hx : x ∈ colVals X j) :
    colMin X j ≤ x := by
  unfold colMin
  rcases hL : colVals X j with _ | ⟨v, vs⟩
  · rw [hL] at hx; cases hx
  · rw [hL] at hx
    rcases List.mem_cons.mp hx with h | h
    · subst h; exact foldl_min_le_init vs x
    · exact foldl_min_le_mem vs v x h

lemma le_colMax (X : List (List ℚ)) (j : ℕ) (x : ℚ) (hx : x ∈ colVals X j) :
    x ≤ colMax X j := by
  unfold colMax
  rcases hL : colVals X j with _ | ⟨v, vs⟩
  · rw [hL] at hx; cases hx
  · rw [hL] at hx
    rcases List.mem_cons.mp hx with h | h
    · subst h; exact foldl_max_ge_init vs x
    · exact foldl_max_ge_mem vs v x h

/-! ## Claim theorems -/

/-- C1: for every potency value p > 0, applying the forward target
transform pIC50 = -log10(p) + 9 and then the inverse transform
IC50_nM = 10 ^ (9 - pIC50) recovers p exactly: the two transforms are
exact inverses of each other on positive potencies. -/
theorem target_transform_roundtrip (p : ℝ) (hp : 0 < p) :
    inverse_transform (forward_transform p) = p := by
  unfold inverse_transform forward_transform
  have h : (9 : ℝ) - (-Real.logb 10 p + 9) = Real.logb 10 p := by ring
  rw [h, Real.rpow_logb (by norm_num) (by norm_num) hp]

/-- Witness for C1 at the concrete potency 1000 nM. -/
theorem target_transform_roundtrip_witness :
    (0 : ℝ) < 1000 ∧ inverse_transform (forward_transform 1000) = 1000 :=
  ⟨by norm_num, target_transform_roundtrip 1000 (by norm_num)⟩

/-- C2: for a training run whose validation loss strictly improves for
the first 5 epochs (epochs 0-4) and then stays flat for the following 25
epochs (epochs 5-29), the early-stopping controller with patience 20
stops training at epoch index 24 — the 25th epoch, i.e. by epoch
5 + 20 — and the restored best weights are those recorded at epoch
index 4 (the 5th epoch), not those of the final epoch. -/
theorem early_stopping_scenario {W : Type} (loss : ℕ → ℚ) (wts : ℕ → W)
    (himp : ∀ i, i < 4 → loss (i + 1) < loss i)
    (hflat : ∀ i, 5 ≤ i → i < 30 → loss i = loss 4) :
    (esRun 20 loss wts 30).stoppedEpoch = some 24
    ∧ (esRun 20 loss wts 30).bestEpoch = 4
    ∧ (esRun 20 loss wts 30).bestWeights = some (wts 4) := by
  have h1 : esRun 20 loss wts 1 =
      { best := some (loss 0), bestEpoch := 0, bestWeights := some (wts 0),
        wait := 0, stoppedEpoch := none } := by
    simp [esRun, esStep, esInit]
  have h2 : esRun 20 loss wts 2 =
      { best := some (loss 1), bestEpoch := 1, bestWeights := some (wts 1),
        wait := 0, stoppedEpoch := none } := by
    rw [esRun, h1]
    simp [esStep, himp 0 (by omega)]
  have h3 : esRun 20 loss wts 3 =
      { best := some (loss 2), bestEpoch := 2, bestWeights := some (wts 2),
        wait := 0, stoppedEpoch := none } := by
    rw [esRun, h2]
    simp [esStep, himp 1 (by omega)]
  have h4 : esRun 20 loss wts 4 =
      { best := some (loss 3), bestEpoch := 3, bestWeights := some (wts 3),
        wait := 0, stoppedEpoch := none } := by
    rw [esRun, h3]
    simp [esStep, himp 2 (by omega)]
  have h5 : esRun 20 loss wts 5 =
      { best := some (loss 4), bestEpoch := 4, bestWeights := some (wts 4),
        wait := 0, stoppedEpoch := none } := by
    rw [esRun, h4]
    simp [esStep, himp 3 (by omega)]
  have hkey : ∀ k, k ≤ 19 →
      esRun 20 loss wts (5 + k) =
        { best := some (loss 4), bestEpoch := 4, bestWeights := some (wts 4),
          wait := k, stoppedEpoch := none } := by
    intro k
    induction k with
    | zero => intro _; exact h5
    | succ n ih =>
      intro hn
      have hstep : esRun 20 loss wts (5 + (n + 1)) =
          esStep 20 (esRun 20 loss wts (5 + n)) (5 + n) (loss (5 + n)) (wts (5 + n)) := by
        rw [show 5 + (n + 1) = (5 + n) + 1 by omega, esRun]
      rw [hstep, ih (by omega)]
      have hl : loss (5 + n) = loss 4 := hflat (5 + n) (by omega) (by omega)
      rw [hl]
      have hwait : ¬ (20 ≤ n + 1) := by omega
      simp [esStep, hwait]
  have h25 : esRun 20 loss wts 25 =
      { best := some (loss 4), bestEpoch := 4, bestWeights := some (wts 4),
        wait := 20, stoppedEpoch := some 24 } := by
    have hstep : esRun 20 loss wts 25 =
        esStep 20 (esRun 20 loss wts 24) 24 (loss 24) (wts 24) := by
      rw [esRun]
    rw [hstep, show (24 : Nat) = 5 + 19 by omega, hkey 19 (by omega)]
    have hl : loss (5 + 19) = loss 4 := hflat (5 + 19) (by omega) (by omega)
    rw [show (5 + 19 : Nat) = 24 by omega] at hl
    rw [hl]
    simp [esStep]
  have h26 : esRun 20 loss wts 26 = esRun 20 loss wts 25 := by
    rw [esRun, h25]; simp [esStep]
  have h27 : esRun 20 loss wts 27 = esRun 20 loss wts 25 := by
    rw [esRun, h26, h25]; simp [esStep]
  have h28 : esRun 20 loss wts 28 = esRun 20 loss wts 25 := by
    rw [esRun, h27, h25]; simp [esStep]
  have h29 : esRun 20 loss wts 29 = esRun 20 loss wts 25 := by
    rw [esRun, h28, h25]; simp [esStep]
  have h30 : esRun 20 loss wts 30 = esRun 20 loss wts 25 := by
    rw [esRun, h29, h25]; simp [esStep]
  rw [h30, h25]
  exact ⟨rfl, rfl, rfl⟩

/-- Witness for C2 on the concrete loss sequence 10, 9, 8, 7, 6 followed
by 25 flat epochs at 6, with the epoch index as the weight value. -/
theorem early_stopping_scenario_witness :
    (∀ i, i < 4 →
        (fun i => ((10 - min i 4 : ℕ) : ℚ)) (i + 1) < (fun i => ((10 - min i 4 : ℕ) : ℚ)) i)
    ∧ (∀ i, 5 ≤ i → i < 30 →
        (fun i => ((10 - min i 4 : ℕ) : ℚ)) i = (fun i => ((10 - min i 4 : ℕ) : ℚ)) 4)
    ∧ (esRun 20 (fun i => ((10 - min i 4 : ℕ) : ℚ)) (fun i => i) 30).stoppedEpoch = some 24
    ∧ (esRun 20 (fun i => ((10 - min i 4 : ℕ) : ℚ)) (fun i => i) 30).bestEpoch = 4
    ∧ (esRun 20 (fun i => ((10 - min i 4 : ℕ) : ℚ)) (fun i => i) 30).bestWeights = some 4 :=
  ⟨by decide, by decide,
    early_stopping_scenario (fun i => ((10 - min i 4 : ℕ) : ℚ)) (fun i => (i : ℕ))
      (by decide) (by decide)⟩

/-- C3 counterexample: the claim states the learning-rate decay check
runs first at each epoch boundary, before the checkpoint check; in the
script the callbacks list is [checkpoint, reduce_lr, early_stopping]
(line 187) and it is invoked in list order, so the checkpoint callback
runs before the learning-rate callback, refuting the claimed order. -/
theorem callback_order_claim_counterexample :
    ¬ (callbacks.indexOf TrainingCallback.reduceLR <
        callbacks.indexOf TrainingCallback.checkpoint) := by decide

/-- C3 amended: at every epoch boundary the three validation-loss
callbacks are evaluated in the order checkpoint check first, then
learning-rate decay check, then early-stop check; in particular the
checkpoint save still happens before any stop-triggered weight
restoration could overwrite the current weights. -/
theorem callback_order_amended :
    callbacks.indexOf TrainingCallback.checkpoint <
        callbacks.indexOf TrainingCallback.reduceLR
    ∧ callbacks.indexOf TrainingCallback.reduceLR <
        callbacks.indexOf TrainingCallback.earlyStopping
    ∧ callbacks.indexOf TrainingCallback.checkpoint <
        callbacks.indexOf TrainingCallback.earlyStopping := by decide

/-- C4: the sequence encoder maps each character through the fixed
36-entry vocabulary and truncates or zero-right-pads to the target
length: encoding CC(=O)O yields [8, 8, 17, 26, 28, 19, 28] followed by
zeros up to the target length, every encoding has exactly the target
length, and every character encodes to a vocabulary value in 1-36 or to
the default 0. -/
theorem smiles_encoding_spec (m : ℕ) (hm : 7 ≤ m) :
    smiles_encoding ("CC(=O)O".data) m =
      [8, 8, 17, 26, 28, 19, 28] ++ List.replicate (m - 7) 0
    ∧ (∀ s : List Char, (smiles_encoding s m).length = m)
    ∧ (∀ c : Char, encGet enc c = 0 ∨ (1 ≤ encGet enc c ∧ encGet enc c ≤ 36)) := by
  refine ⟨?_, fun s => smiles_encoding_length s m, fun c => lookup_range enc (by decide) c⟩
  have hmap : ("CC(=O)O".data).map (fun c => encGet enc c) = [8, 8, 17, 26, 28, 19, 28] := by
    decide
  unfold smiles_encoding pad_truncate
  rw [hmap]
  rcases Nat.lt_or_ge 7 m with h | h
  · rw [if_pos (by simpa using h)]
    apply List.take_of_length_le
    simp
    omega
  · have hm7 : m = 7 := le_antisymm h hm
    subst hm7
    rw [if_neg (by simp)]
    simp

/-- Witness for C4 at target length 10. -/
theorem smiles_encoding_spec_witness :
    7 ≤ 10
    ∧ smiles_encoding ("CC(=O)O".data) 10 =
        [8, 8, 17, 26, 28, 19, 28] ++ List.replicate (10 - 7) 0 :=
  ⟨by decide, (smiles_encoding_spec 10 (by decide)).1⟩

/-- C5: on any matrix the min-max scaler was fitted on, every transformed
value of a column with non-zero fit-time range lies in [0, 1]; the
column minimum transforms to exactly 0 and the column maximum to exactly
1, and both extremes are attained by rows of the fitted matrix. -/
theorem minmax_fit_transform_unit_interval (X : List (List ℚ)) (j : ℕ)
    (hne : colMin X j ≠ colMax X j) :
    (∀ v ∈ colVals X j, 0 ≤ minmax_transform X j v ∧ minmax_transform X j v ≤ 1)
    ∧ minmax_transform X j (colMin X j) = 0
    ∧ minmax_transform X j (colMax X j) = 1
    ∧ colMin X j ∈ colVals X j ∧ colMax X j ∈ colVals X j := by
  have hX : colVals X j ≠ [] := by
    intro h
    apply hne
    unfold colMin colMax
    rw [h]
  have hminmem := colMin_mem X j hX
  have hmaxmem := colMax_mem X j hX
  have hle : colMin X j ≤ colMax X j := colMin_le X j (colMax X j) hmaxmem
  have hlt : colMin X j < colMax X j := lt_of_le_of_ne hle hne
  have hr : (0 : ℚ) < colMax X j - colMin X j := sub_pos.mpr hlt
  have hz : handle_zeros_in_scale (colMax X j - colMin X j) = colMax X j - colMin X j := by
    unfold handle_zeros_in_scale
    rw [if_neg (ne_of_gt hr)]
  refine ⟨?_, ?_, ?_, hminmem, hmaxmem⟩
  · intro v hv
    unfold minmax_transform
    rw [hz]
    constructor
    · exact div_nonneg (sub_nonneg.mpr (colMin_le X j v hv)) (le_of_lt hr)
    · rw [div_le_one hr]
      exact sub_le_sub_right (le_colMax X j v hv) _
  · unfold minmax_transform
    rw [hz, sub_self, zero_div]
  · unfold minmax_transform
    rw [hz, div_self (ne_of_gt hr)]

/-- Witness for C5 on the concrete fitted matrix [[0], [2]]. -/
theorem minmax_fit_transform_unit_interval_witness :
    colMin [[0], [2]] 0 ≠ colMax [[0], [2]] 0
    ∧ minmax_transform [[0], [2]] 0 (colMin [[0], [2]] 0) = 0
    ∧ minmax_transform [[0], [2]] 0 (colMax [[0], [2]] 0) = 1 :=
  ⟨by decide,
    (minmax_fit_transform_unit_interval [[0], [2]] 0 (by decide)).2.1,
    (minmax_fit_transform_unit_interval [[0], [2]] 0 (by decide)).2.2.1⟩

/-- C6: every SMILES string of the train or test set encodes to a
sequence of the one shared length max_smiles_len, and that shared length
equals the maximum string length over the union of the two sets. -/
theorem encoded_length_uniform (train test : List (List Char)) (s : List Char)
    (hs : s ∈ train ++ test) :
    (smiles_encoding s (max_smiles_len train test)).length = max_smiles_len train test
    ∧ max_smiles_len train test = listMaxLen (train ++ test) :=
  ⟨smiles_encoding_length s (max_smiles_len train test),
    max_smiles_len_eq_union train test⟩

/-- Witness for C6 on a concrete two-string train set and one-string
test set. -/
theorem encoded_length_uniform_witness :
    ['C'] ∈ ([['C'], ['C', 'C']] ++ [['O', 'C', 'C']] : List (List Char))
    ∧ (smiles_encoding ['C'] (max_smiles_len [['C'], ['C', 'C']] [['O', 'C', 'C']])).length =
        max_smiles_len [['C'], ['C', 'C']] [['O', 'C', 'C']]
    ∧ max_smiles_len [['C'], ['C', 'C']] [['O', 'C', 'C']] =
        listMaxLen ([['C'], ['C', 'C']] ++ [['O', 'C', 'C']]) :=
  ⟨by decide,
    (encoded_length_uniform [['C'], ['C', 'C']] [['O', 'C', 'C']] ['C'] (by decide)).1,
    (encoded_length_uniform [['C'], ['C', 'C']] [['O', 'C', 'C']] ['C'] (by decide)).2⟩

/-- C7: for every structure string the parser cannot turn into a
molecule, descriptor extraction fails hard — it produces the error value
and never an ok result, so no default or zero descriptor vector is ever
substituted. -/
theorem unparseable_smiles_hard_failure {Mol : Type} (parse : String → Option Mol)
    (descriptors : Mol → List ℚ) (smiles : String) (h : parse smiles = none) :
    calculate_rdkit_features parse descriptors smiles = Except.error smiles
    ∧ ∀ v, calculate_rdkit_features parse descriptors smiles ≠ Except.ok v := by
  unfold calculate_rdkit_features
  rw [h]
  exact ⟨rfl, fun v hv => Except.noConfusion hv⟩

/-- Witness for C7 with a parser that rejects every string. -/
theorem unparseable_smiles_hard_failure_witness :
    (fun _ : String => (none : Option Unit)) "X" = none
    ∧ calculate_rdkit_features (fun _ : String => (none : Option Unit))
        (fun _ => ([] : List ℚ)) "X" = Except.error "X"
    ∧ ∀ v, calculate_rdkit_features (fun _ : String => (none : Option Unit))
        (fun _ => ([] : List ℚ)) "X" ≠ Except.ok v :=
  ⟨rfl,
    (unparseable_smiles_hard_failure (fun _ => none) (fun _ => []) "X" rfl).1,
    (unparseable_smiles_hard_failure (fun _ => none) (fun _ => []) "X" rfl).2⟩

/-- C8: when compute-backend initialization fails (raises ValueError),
strategy selection falls back to the default execution strategy and the
pipeline continues; and this is the only recovered failure — the other
fallible stage, descriptor extraction, propagates its failure instead of
recovering to an ok result. -/
theorem tpu_fallback_only_recovered {T : Type} (tpuInit : Except ValueError T)
    (e : ValueError) (h : tpuInit = Except.error e) :
    select_strategy tpuInit = Strategy.default
    ∧ (∀ {Mol : Type} (parse : String → Option Mol) (d : Mol → List ℚ) (s : String),
        parse s = none → (calculate_rdkit_features parse d s).isOk = false) := by
  constructor
  · rw [h]; rfl
  · intro Mol parse d s hp
    unfold calculate_rdkit_features
    rw [hp]
    rfl

/-- Witness for C8 at a concrete failed initialization. -/
theorem tpu_fallback_only_recovered_witness :
    (Except.error ⟨"no TPU"⟩ : Except ValueError Unit) = Except.error ⟨"no TPU"⟩
    ∧ select_strategy (Except.error ⟨"no TPU"⟩ : Except ValueError Unit) = Strategy.default :=
  ⟨rfl, (tpu_fallback_only_recovered (Except.error ⟨"no TPU"⟩ : Except ValueError Unit)
    ⟨"no TPU"⟩ rfl).1⟩

/-- C9: the submission has exactly one row per test record, and the row
at each index pairs that test record's identifier with the inverse
target transform of the model's raw prediction at the same index — the
identifier-to-prediction correspondence is preserved with no
reordering. -/
theorem submission_preserves_order (ids : List String) (preds : List ℝ)
    (hlen : preds.length = ids.length) :
    (submission ids preds).length = ids.length
    ∧ ∀ i, i < ids.length →
        (submission ids preds).getD i ("", 0) =
          (ids.getD i "", inverse_transform (preds.getD i 0)) := by
  have hzl : (submission ids preds).length = ids.length := by
    unfold submission ic50_predictions
    rw [List.length_zip, List.length_map, hlen, min_self]
  refine ⟨hzl, fun i hi => ?_⟩
  have hi2 : i < (submission ids preds).length := by rw [hzl]; exact hi
  have hip : i < preds.length := by rw [hlen]; exact hi
  rw [List.getD_eq_getElem _ _ hi2, List.getD_eq_getElem _ _ hi,
    List.getD_eq_getElem _ _ hip]
  unfold submission ic50_predictions
  rw [List.getElem_zip, List.getElem_map]

/-- Witness for C9 on a concrete two-record test set. -/
theorem submission_preserves_order_witness :
    ([(1 : ℝ), 2]).length = (["a", "b"]).length
    ∧ (0 : ℕ) < (["a", "b"]).length
    ∧ (submission ["a", "b"] [(1 : ℝ), 2]).length = (["a", "b"]).length
    ∧ (submission ["a", "b"] [(1 : ℝ), 2]).getD 0 ("", 0) =
        ((["a", "b"]).getD 0 "", inverse_transform (([(1 : ℝ), 2]).getD 0 0)) :=
  ⟨rfl, by decide,
    (submission_preserves_order ["a", "b"] [(1 : ℝ), 2] rfl).1,
    (submission_preserves_order ["a", "b"] [(1 : ℝ), 2] rfl).2 0 (by decide)⟩

/-- C10: dropping row 6341 from the freshly loaded training table removes
exactly that one record: the resulting table is one record shorter,
records before position 6341 keep their positions, and every record after
position 6341 shifts down by exactly one — so every training record other
than the one at row index 6341 is retained. -/
theorem train_drop_row_6341 {α : Type} (l : List α) (h : 6341 < l.length) :
    (train_after_drop l).length = l.length - 1
    ∧ (∀ i, i < 6341 → (train_after_drop l)[i]? = l[i]?)
    ∧ (∀ i, 6341 ≤ i → (train_after_drop l)[i]? = l[i + 1]?) := by
  unfold train_after_drop
  exact ⟨List.length_eraseIdx_of_lt h,
    fun i hi => List.getElem?_eraseIdx_of_lt l 6341 i hi,
    fun i hi => List.getElem?_eraseIdx_of_ge l 6341 i hi⟩

/-- Witness for C10 on a concrete table of 6342 records. -/
theorem train_drop_row_6341_witness :
    6341 < (List.replicate 6342 (0 : ℕ)).length
    ∧ (train_after_drop (List.replicate 6342 (0 : ℕ))).length =
        (List.replicate 6342 (0 : ℕ)).length - 1 :=
  ⟨by simp only [List.length_replicate]; omega,
    (train_drop_row_6341 (List.replicate 6342 (0 : ℕ))
      (by simp only [List.length_replicate]; omega)).1⟩

end ThreeDCNN
